import Mathlib

/-!
Verification of the edge-optimization-subnet core: the submission codec
(`CheckpointSubmission.to_bytes` / `from_bytes`, `get_submission` in
src/neuron/neuron/checkpoint.py) and the two comparator variants
(`compare_checkpoints` in src/neuron/neuron/checkpoint.py and in
src/validator/src/validator/compare_checkpoints.py).

Modelling conventions:
* Python `bytes` values are lists of naturals (each byte < 256 where it
  matters); a record's string fields are modelled by their UTF-8 byte lists,
  since the codec only moves the raw bytes (UTF-8 encode/decode is a
  bijection on valid strings).
* The `average_time` float field is modelled by its 32-bit IEEE-754 bit
  pattern (a natural < 2^32): the wire format stores exactly that pattern
  via `float_bits` / `float_from_bits`.
* Python float arithmetic in the comparators is modelled by `PyFloat`:
  exact rational arithmetic extended with the IEEE-754 special values
  `inf`, `-inf` and `nan` and their propagation rules (the neuron variant
  seeds its running averages with `float("inf")`, so the special values
  are semantically essential there).  Rounding of finite values is
  abstracted to exact rational arithmetic.
* Each Python function that can raise is modelled with `Option`/`Except`;
  a `none`/`.error` result stands for the raised exception.
* The comparison loops carry two instrumentation fields (`samplesTested`,
  `stopReason`) recording how many loop iterations ran and which break
  statement (if any) ended the loop; these are directly observable in the
  source (number of generation calls issued, which branch broke).
-/

namespace Codec

/-- Big-endian 4-byte encoding of a natural, as written by
`int.to_bytes(value, 4, "big")` in `write_int`. -/
def be4 (v : ℕ) : List ℕ :=
  [v / 2 ^ 24 % 256, v / 2 ^ 16 % 256, v / 2 ^ 8 % 256, v % 256]

/-- Big-endian interpretation of an arbitrary byte list, as computed by
`int.from_bytes(data, "big")` (an empty list yields 0, a short list is
interpreted as-is — Python does not pad or reject). -/
def fromBe (bs : List ℕ) : ℕ :=
  bs.foldl (fun acc b => acc * 256 + b) 0

/-- `CheckpointSubmission` (src/neuron/neuron/checkpoint.py, lines 38-43):
string fields as UTF-8 byte lists, the float field as its 32-bit pattern. -/
structure CheckpointSubmission where
  repository : List ℕ
  mlpackages : List ℕ
  average_time_bits : ℕ
  spec_version : ℕ
  contest : ℕ
deriving DecidableEq, Repr

/-- Errors `to_bytes` can raise: `valueError` models `bytearray.append`
rejecting a length above 255, `overflowError` models `int.to_bytes`
rejecting a value outside 4 bytes, `oversize` models the explicit
`RuntimeError` raised when the assembled data exceeds 128 bytes (it carries
the record and the computed length, as the f-string message does). -/
inductive EncodeError where
  | valueError : EncodeError
  | overflowError : EncodeError
  | oversize : CheckpointSubmission → ℕ → EncodeError
deriving DecidableEq, Repr

deriving instance DecidableEq for Except

/-- `write_bytes` (lines 48-50): append one length byte then the bytes. -/
def write_bytes (data bs : List ℕ) : Except EncodeError (List ℕ) :=
  if bs.length ≤ 255 then .ok (data ++ [bs.length] ++ bs) else .error .valueError

/-- `write_int` (lines 52-53): append the 4-byte big-endian encoding. -/
def write_int (data : List ℕ) (v : ℕ) : Except EncodeError (List ℕ) :=
  if v < 2 ^ 32 then .ok (data ++ be4 v) else .error .overflowError

/-- `CheckpointSubmission.to_bytes` (lines 45-64). -/
def CheckpointSubmission.to_bytes (self : CheckpointSubmission) :
    Except EncodeError (List ℕ) := do
  let data : List ℕ := []
  let data ← write_bytes data self.repository
  let data ← write_bytes data self.mlpackages
  let data ← write_int data self.average_time_bits
  let data ← write_int data self.spec_version
  let data ← write_int data self.contest
  if data.length > 128 then
    .error (.oversize self data.length)
  else
    .ok data

/-- `read_bytes` (lines 70-78) at a given cursor position: `data[position]`
raises `IndexError` when the position is out of range (modelled `none`),
while the value slice `data[position:position+length]` silently truncates.
Returns the value and the new position `position + 1 + length`. -/
def read_bytes (data : List ℕ) (position : ℕ) : Option (List ℕ × ℕ) :=
  match data[position]? with
  | none => none
  | some length => some (((data.drop (position + 1)).take length), position + 1 + length)

/-- `read_int` (lines 80-86) at a given cursor position: the slice
`data[position:position+4]` silently truncates (possibly to empty), and
`int.from_bytes` accepts any length.  Never raises. -/
def read_int (data : List ℕ) (position : ℕ) : ℕ × ℕ :=
  (fromBe ((data.drop position).take 4), position + 4)

/-- The byte-level reads of `CheckpointSubmission.from_bytes` (lines
66-100): `none` models an `IndexError` escaping a length-byte read.  The
`.decode()` UTF-8 validity check the source applies to each string slice
(lines 88-89) is modelled on top of this in `from_bytes_decoded`; this raw
layer is what the truncation and round-trip analyses are phrased over, on
domains where the decode step cannot fail (ASCII fields, valid records). -/
def CheckpointSubmission.from_bytes (data : List ℕ) :
    Option CheckpointSubmission := do
  let position := 0
  let (repository, position) ← read_bytes data position
  let (mlpackages, position) ← read_bytes data position
  let (average_time_bits, position) := read_int data position
  let (spec_version, position) := read_int data position
  let (contest, _) := read_int data position
  pure ⟨repository, mlpackages, average_time_bits, spec_version, contest⟩

/-- A UTF-8 continuation byte (0x80-0xBF). -/
def isCont (b : ℕ) : Bool := 128 ≤ b && b ≤ 191

/-- Strict UTF-8 validity of a byte list, as enforced by Python's
`bytes.decode()` (RFC 3629): one-byte 0x00-0x7F; leads 0xC2-0xDF with one
continuation (0xC0/0xC1 would be overlong); 0xE0 with second byte
0xA0-0xBF (overlong guard), 0xED with second byte 0x80-0x9F (surrogate
guard), other three-byte leads 0xE1-0xEF with two continuations; 0xF0 with
second byte 0x90-0xBF (overlong guard), 0xF4 with second byte 0x80-0x8F
(above U+10FFFF guard), 0xF1-0xF3 with three continuations; anything else
(stray continuations, 0xF5-0xFF, truncated sequences) is invalid. -/
def utf8Valid : List ℕ → Bool
  | [] => true
  | b :: rest =>
    if b ≤ 127 then utf8Valid rest
    else if 194 ≤ b && b ≤ 223 then
      match rest with
      | c1 :: rest => isCont c1 && utf8Valid rest
      | [] => false
    else if b = 224 then
      match rest with
      | c1 :: c2 :: rest => (160 ≤ c1 && c1 ≤ 191) && isCont c2 && utf8Valid rest
      | _ => false
    else if (225 ≤ b && b ≤ 236) || b = 238 || b = 239 then
      match rest with
      | c1 :: c2 :: rest => isCont c1 && isCont c2 && utf8Valid rest
      | _ => false
    else if b = 237 then
      match rest with
      | c1 :: c2 :: rest => (128 ≤ c1 && c1 ≤ 159) && isCont c2 && utf8Valid rest
      | _ => false
    else if b = 240 then
      match rest with
      | c1 :: c2 :: c3 :: rest =>
        (144 ≤ c1 && c1 ≤ 191) && isCont c2 && isCont c3 && utf8Valid rest
      | _ => false
    else if 241 ≤ b && b ≤ 243 then
      match rest with
      | c1 :: c2 :: c3 :: rest => isCont c1 && isCont c2 && isCont c3 && utf8Valid rest
      | _ => false
    else if b = 244 then
      match rest with
      | c1 :: c2 :: c3 :: rest =>
        (128 ≤ c1 && c1 ≤ 143) && isCont c2 && isCont c3 && utf8Valid rest
      | _ => false
    else false

/-- `bytes.decode()` on a string slice: the bytes themselves when they are
valid UTF-8 (strings are modelled by their UTF-8 byte lists, so the decode
is the identity there), `none` for the `UnicodeDecodeError` raised on
invalid UTF-8. -/
def decodeBytes (bs : List ℕ) : Option (List ℕ) :=
  if utf8Valid bs then some bs else none

/-- `CheckpointSubmission.from_bytes` (lines 66-100) with the `.decode()`
calls of lines 88-89 included: each string slice must decode as UTF-8,
exactly where the source applies `.decode()`.  `none` models any exception
escaping the decoder (`IndexError` from a length-byte read or
`UnicodeDecodeError` from a string slice). -/
def CheckpointSubmission.from_bytes_decoded (data : List ℕ) :
    Option CheckpointSubmission := do
  let position := 0
  let (repositoryBytes, position) ← read_bytes data position
  let repository ← decodeBytes repositoryBytes
  let (mlpackagesBytes, position) ← read_bytes data position
  let mlpackages ← decodeBytes mlpackagesBytes
  let (average_time_bits, position) := read_int data position
  let (spec_version, position) := read_int data position
  let (contest, _) := read_int data position
  pure ⟨repository, mlpackages, average_time_bits, spec_version, contest⟩

/-- The ASCII bytes of the constant `BASELINE_CHECKPOINT`, the string
"stabilityai/stable-diffusion-xl-base-1.0" (line 22). -/
def BASELINE_CHECKPOINT : List ℕ :=
  [115, 116, 97, 98, 105, 108, 105, 116, 121, 97, 105, 47, 115, 116, 97, 98,
   108, 101, 45, 100, 105, 102, 102, 117, 115, 105, 111, 110, 45, 120, 108,
   45, 98, 97, 115, 101, 45, 49, 46, 48]

/-- The ASCII bytes of the constant `MLPACKAGES`, the string
"apple/coreml-stable-diffusion-xl-base" (line 23). -/
def MLPACKAGES : List ℕ :=
  [97, 112, 112, 108, 101, 47, 99, 111, 114, 101, 109, 108, 45, 115, 116, 97,
   98, 108, 101, 45, 100, 105, 102, 102, 117, 115, 105, 111, 110, 45, 120,
   108, 45, 98, 97, 115, 101]

def CURRENT_CONTEST : ℕ := 0

def SPEC_VERSION : ℕ := 20

/-- `get_submission` (lines 132-155).  The chain read and hex handling are
opaque collaborators; the function's input is modelled as the commitment
bytes (`none` when the metadata is absent or the surrounding steps raised —
every exception, the decoder's `IndexError` and `UnicodeDecodeError`
included, is caught by the broad `except` and turned into `None`). -/
def get_submission (metadata : Option (List ℕ)) : Option CheckpointSubmission :=
  match metadata with
  | none => none
  | some bs =>
    match CheckpointSubmission.from_bytes_decoded bs with
    | none => none
    | some info =>
      if info.spec_version ≠ SPEC_VERSION ∨ info.contest ≠ CURRENT_CONTEST ∨
          (info.repository = BASELINE_CHECKPOINT ∧ info.mlpackages = MLPACKAGES) then
        none
      else
        some info

end Codec

/-- Python float values as used by the comparators: the IEEE-754 special
values `inf`, `ninf` (negative infinity) and `nan`, and finite values as
exact rationals (rounding abstracted away). -/
inductive PyFloat where
  | nan : PyFloat
  | inf : PyFloat
  | ninf : PyFloat
  | fin : ℚ → PyFloat
deriving DecidableEq, Repr

namespace PyFloat

/-- IEEE-754 addition on `PyFloat`. -/
def add : PyFloat → PyFloat → PyFloat
  | nan, _ => nan
  | _, nan => nan
  | inf, ninf => nan
  | ninf, inf => nan
  | inf, _ => inf
  | _, inf => inf
  | ninf, _ => ninf
  | _, ninf => ninf
  | fin a, fin b => fin (a + b)

/-- IEEE-754 negation on `PyFloat`. -/
def neg : PyFloat → PyFloat
  | nan => nan
  | inf => ninf
  | ninf => inf
  | fin a => fin (-a)

/-- IEEE-754 subtraction on `PyFloat`. -/
def sub (a b : PyFloat) : PyFloat := a.add b.neg

/-- IEEE-754 multiplication on `PyFloat`; in particular
`inf * 0 = nan` (this is what breaks the neuron running averages). -/
def mul : PyFloat → PyFloat → PyFloat
  | nan, _ => nan
  | _, nan => nan
  | inf, inf => inf
  | inf, ninf => ninf
  | ninf, inf => ninf
  | ninf, ninf => inf
  | inf, fin q => if q = 0 then nan else if 0 < q then inf else ninf
  | fin q, inf => if q = 0 then nan else if 0 < q then inf else ninf
  | ninf, fin q => if q = 0 then nan else if 0 < q then ninf else inf
  | fin q, ninf => if q = 0 then nan else if 0 < q then ninf else inf
  | fin a, fin b => fin (a * b)

/-- Division of a `PyFloat` by a positive integer count, covering every
division the comparators perform (`/(generated + 1)`, `/remaining`, `/2`;
each divisor is a positive machine integer).  Division by zero never occurs
at the call sites; it is mapped to `nan` for totality. -/
def divNat (a : PyFloat) (n : ℕ) : PyFloat :=
  if n = 0 then nan else
  match a with
  | nan => nan
  | inf => inf
  | ninf => ninf
  | fin q => fin (q / n)

/-- IEEE-754 `<` as a Boolean: any comparison involving `nan` is false. -/
def lt : PyFloat → PyFloat → Bool
  | nan, _ => false
  | _, nan => false
  | inf, _ => false
  | ninf, ninf => false
  | ninf, _ => true
  | _, inf => true
  | _, ninf => false
  | fin a, fin b => decide (a < b)

/-- IEEE-754 `≤` as a Boolean: any comparison involving `nan` is false. -/
def le : PyFloat → PyFloat → Bool
  | nan, _ => false
  | _, nan => false
  | ninf, _ => true
  | _, inf => true
  | inf, _ => false
  | fin _, ninf => false
  | fin a, fin b => decide (a ≤ b)

/-- IEEE-754 `>=` as a Boolean. -/
def ge (a b : PyFloat) : Bool := le b a

end PyFloat

namespace Neuron

/-- `SAMPLE_COUNT` (src/neuron/neuron/checkpoint.py, line 27). -/
def SAMPLE_COUNT : ℕ := 5

/-- The data one loop iteration obtains from the opaque generation
collaborator: the baseline generation's elapsed time, the miner
generation's elapsed time, and the cosine similarity of the two flattened
outputs (the value of `cosine_similarity(...).item()`). -/
structure Sample where
  baseTime : ℚ
  minerTime : ℚ
  cosSim : ℚ
deriving DecidableEq, Repr

/-- Which break statement ended the loop. -/
inductive StopReason where
  | reportedTime : StopReason
  | infeasibleSpeed : StopReason
  | qualityFloor : StopReason
deriving DecidableEq, Repr

/-- The comparator's running state. `samplesTested` and `stopReason` are
instrumentation: the number of loop iterations executed so far and the
break that ended the loop, if any. -/
structure State where
  failed : Bool
  baseline_average : PyFloat
  average_time : PyFloat
  average_similarity : PyFloat
  samplesTested : ℕ
  stopReason : Option StopReason
deriving DecidableEq, Repr

/-- One iteration of the `compare_checkpoints` loop
(src/neuron/neuron/checkpoint.py, lines 172-243), with the generation
calls replaced by the injected `Sample`.  Returns the updated state; a
`stopReason` of `some _` means the iteration executed a `break`. -/
def step (reported_average_time : Option ℚ) (i : ℕ) (x : Sample)
    (s : State) : State :=
  let generated := i
  let remaining := SAMPLE_COUNT - generated
  let baseline_average :=
    ((s.baseline_average.mul (.fin generated)).add (.fin x.baseTime)).divNat
      (generated + 1)
  let gen_time := x.minerTime
  let similarity : ℚ := (x.cosSim * (1 / 2) + 1 / 2) ^ 4
  let average_time :=
    ((s.average_time.mul (.fin generated)).add (.fin gen_time)).divNat (generated + 1)
  let average_similarity :=
    ((s.average_similarity.mul (.fin generated)).add (.fin similarity)).divNat
      (generated + 1)
  let s' : State :=
    ⟨s.failed, baseline_average, average_time, average_similarity, i + 1, none⟩
  let rule1 : Bool :=
    match reported_average_time with
    | none => false
    | some t => decide (t ≠ 0) && average_time.ge (.fin (t * (17 / 16)))
  if rule1 then
    ⟨true, baseline_average, average_time, average_similarity, i + 1,
      some .reportedTime⟩
  else if average_time.lt baseline_average then
    s'
  else
    let needed_time :=
      ((baseline_average.mul (.fin SAMPLE_COUNT)).sub
        ((PyFloat.fin generated).mul average_time)).divNat remaining
    if needed_time.lt (average_time.divNat 2) then
      ⟨true, baseline_average, average_time, average_similarity, i + 1,
        some .infeasibleSpeed⟩
    else if average_similarity.lt (.fin (17 / 20)) then
      ⟨true, baseline_average, average_time, average_similarity, i + 1,
        some .qualityFloor⟩
    else
      s'

/-- The loop `for i in range(SAMPLE_COUNT)`, running `n` more iterations
starting at index `i`, stopping when an iteration breaks. -/
def loop (reported_average_time : Option ℚ) (samples : ℕ → Sample) :
    ℕ → ℕ → State → State
  | 0, _, s => s
  | n + 1, i, s =>
    let s' := step reported_average_time i (samples i) s
    match s'.stopReason with
    | some _ => s'
    | none => loop reported_average_time samples n (i + 1) s'

/-- `compare_checkpoints` (src/neuron/neuron/checkpoint.py, lines 158-256):
`failed = False`, both time averages seeded `float("inf")`,
`average_similarity` seeded `1.0`, then the sampling loop. -/
def compare_checkpoints (reported_average_time : Option ℚ)
    (samples : ℕ → Sample) : State :=
  loop reported_average_time samples SAMPLE_COUNT 0
    ⟨false, .inf, .inf, .fin 1, 0, none⟩

/-- The similarity value a sample contributes:
`pow(cos * 0.5 + 0.5, 4)` (lines 208-216). -/
def simOf (x : Sample) : ℚ := (x.cosSim * (1 / 2) + 1 / 2) ^ 4

/-- The exact arithmetic mean of the first `i + 1` similarity values. -/
def simMean (samples : ℕ → Sample) (i : ℕ) : ℚ :=
  (∑ k ∈ Finset.range (i + 1), simOf (samples k)) / (i + 1)

/-- The specification-side description of what the neuron loop does once
its time aggregates are `nan` (which is the case after the first
iteration): only the quality-floor rule can fire, and `average_similarity`
is folded exactly.  The comparator is proved to coincide with this
function; it serves as the explicit normal form of the loop. -/
def nanLoop (samples : ℕ → Sample) : ℕ → ℕ → ℚ → State
  | 0, i, m => ⟨false, .nan, .nan, .fin m, i, none⟩
  | n + 1, i, m =>
    let m' := (m * i + simOf (samples i)) / (i + 1)
    if m' < 17 / 20 then
      ⟨true, .nan, .nan, .fin m', i + 1, some .qualityFloor⟩
    else
      nanLoop samples n (i + 1) m'

end Neuron

namespace Validator

/-- `SAMPLE_COUNT` (src/validator/src/validator/compare_checkpoints.py,
line 20). -/
def SAMPLE_COUNT : ℕ := 10

/-- Which break statement ended the loop (this variant has only the
infeasible-speed break and the quality break, and no failure flag). -/
inductive StopReason where
  | infeasibleSpeed : StopReason
  | qualityFloor : StopReason
deriving DecidableEq, Repr

/-- The running state of the validator comparator.  `samplesTested` and
`stopReason` are instrumentation (iterations executed, break taken).  The
arithmetic is plain rational: this variant seeds `average_time` with the
finite constant `AVERAGE_TIME`, so no IEEE special value ever arises. -/
structure State where
  average_time : ℚ
  average_similarity : ℚ
  samplesTested : ℕ
  stopReason : Option StopReason
deriving DecidableEq, Repr

/-- One iteration of the validator `compare_checkpoints` loop
(src/validator/src/validator/compare_checkpoints.py, lines 35-78), with
the generation collaborator's contributions injected: `gen_time` is the
elapsed time of the timed generation call and `cosSim` the value of
`cosine_similarity(base_output.flatten(), output.flatten(), ...).item()`. -/
def step (AVERAGE_TIME : ℚ) (i : ℕ) (gen_time cosSim : ℚ) (s : State) : State :=
  let similarity : ℚ := cosSim ^ 4
  let generated := i
  let remaining := SAMPLE_COUNT - generated
  let average_time : ℚ := (s.average_time * generated + gen_time) / (generated + 1)
  let average_similarity : ℚ :=
    (s.average_similarity * generated + similarity) / (generated + 1)
  if average_time < AVERAGE_TIME then
    ⟨average_time, average_similarity, i + 1, none⟩
  else
    let needed_time : ℚ :=
      (AVERAGE_TIME * SAMPLE_COUNT - generated * average_time) / remaining
    if needed_time < average_time / 2 then
      ⟨average_time, average_similarity, i + 1, some .infeasibleSpeed⟩
    else if average_similarity < 17 / 20 then
      ⟨average_time, average_similarity, i + 1, some .qualityFloor⟩
    else
      ⟨average_time, average_similarity, i + 1, none⟩

/-- The loop `for i in range(SAMPLE_COUNT)`: run `n` more iterations
starting at index `i`, stopping when an iteration breaks. -/
def loop (AVERAGE_TIME : ℚ) (times cosSims : ℕ → ℚ) : ℕ → ℕ → State → State
  | 0, _, s => s
  | n + 1, i, s =>
    let s' := step AVERAGE_TIME i (times i) (cosSims i) s
    match s'.stopReason with
    | some _ => s'
    | none => loop AVERAGE_TIME times cosSims n (i + 1) s'

/-- The full sampling loop from its initial state: `average_time` seeded
with the constant `AVERAGE_TIME` and `average_similarity` with `1.0`.
`AVERAGE_TIME` is imported from the neuron package in the source and its
defining file is not under src/, so it is kept as a parameter. -/
def run (AVERAGE_TIME : ℚ) (times cosSims : ℕ → ℚ) : State :=
  loop AVERAGE_TIME times cosSims SAMPLE_COUNT 0 ⟨AVERAGE_TIME, 1, 0, none⟩

/-- `compare_checkpoints` (src/validator/src/validator/compare_checkpoints.py,
lines 30-80) at the pipeline level: `gen p i c` is the output of the `c`-th
generation call of iteration `i` issued to pipeline `p` (the prompt, seed
and generator state are folded into the indices), `cosSim` the cosine
similarity of two flattened outputs, `times i` the measured elapsed time of
iteration `i`'s timed call.  Both generation calls of each iteration are
issued to `baseline`, exactly as in the source (lines 42 and 50);
`miner_checkpoint` appears in the signature but is never invoked
(the resulting unused-variable warning is the source's bug, kept as is). -/
def compare_checkpoints {P O : Type} (AVERAGE_TIME : ℚ)
    (gen : P → ℕ → Fin 2 → O) (cosSim : O → O → ℚ) (times : ℕ → ℚ)
    (baseline miner_checkpoint : P) : ℚ :=
  let s := run AVERAGE_TIME times
    (fun i => cosSim (gen baseline i 0) (gen baseline i 1))
  min 0 (s.average_time - AVERAGE_TIME) * s.average_similarity

end Validator

namespace Codec

theorem fromBe_be4 {v : ℕ} (h : v < 2 ^ 32) : fromBe (be4 v) = v := by
  simp only [fromBe, be4, List.foldl]
  omega

theorem assembled_length (r : CheckpointSubmission) :
    ([r.repository.length] ++ r.repository ++ [r.mlpackages.length] ++ r.mlpackages ++
      be4 r.average_time_bits ++ be4 r.spec_version ++ be4 r.contest).length =
      14 + r.repository.length + r.mlpackages.length := by
  simp [be4]
  omega

theorem to_bytes_eq (r : CheckpointSubmission)
    (h1 : r.repository.length ≤ 255) (h2 : r.mlpackages.length ≤ 255)
    (h3 : r.average_time_bits < 2 ^ 32) (h4 : r.spec_version < 2 ^ 32)
    (h5 : r.contest < 2 ^ 32) :
    r.to_bytes =
      if 128 < 14 + r.repository.length + r.mlpackages.length then
        .error (.oversize r (14 + r.repository.length + r.mlpackages.length))
      else
        .ok ([r.repository.length] ++ r.repository ++ [r.mlpackages.length] ++
          r.mlpackages ++ be4 r.average_time_bits ++ be4 r.spec_version ++ be4 r.contest) := by
  simp only [CheckpointSubmission.to_bytes, write_bytes, write_int, h1, h2, h3, h4, h5,
    if_pos, if_true, List.nil_append]
  simp only [bind, Except.bind, List.nil_append, gt_iff_lt]
  rw [show (([r.repository.length] ++ r.repository ++ [r.mlpackages.length] ++ r.mlpackages ++
      be4 r.average_time_bits ++ be4 r.spec_version ++ be4 r.contest).length) =
      14 + r.repository.length + r.mlpackages.length from assembled_length r]

theorem decode_assembled (R M : List ℕ) (a s c : ℕ)
    (h3 : a < 2 ^ 32) (h4 : s < 2 ^ 32) (h5 : c < 2 ^ 32) :
    CheckpointSubmission.from_bytes
      ([R.length] ++ R ++ [M.length] ++ M ++ be4 a ++ be4 s ++ be4 c) =
      some ⟨R, M, a, s, c⟩ := by
  set data : List ℕ := [R.length] ++ R ++ [M.length] ++ M ++ be4 a ++ be4 s ++ be4 c with hdata
  have r1 : read_bytes data 0 = some (R, 1 + R.length) := by
    simp [read_bytes, hdata, List.take_left]
  have r2 : read_bytes data (1 + R.length) = some (M, 2 + R.length + M.length) := by
    have hsplit : data = (R.length :: R) ++ (M.length :: (M ++ (be4 a ++ (be4 s ++ be4 c)))) := by
      simp [hdata]
    rw [read_bytes, hsplit, List.getElem?_append_right (by simp only [List.length_cons]; omega)]
    simp only [List.length_cons]
    rw [show 1 + R.length - (R.length + 1) = 0 by omega]
    simp only [List.getElem?_cons_zero]
    rw [show (R.length :: R) ++ (M.length :: (M ++ (be4 a ++ (be4 s ++ be4 c)))) =
      ((R.length :: R) ++ [M.length]) ++ (M ++ (be4 a ++ (be4 s ++ be4 c))) by simp]
    rw [List.drop_left' (by simp <;> omega)]
    rw [List.take_left]
    simp only [Option.some.injEq, Prod.mk.injEq, true_and]
    omega
  have i1 : read_int data (2 + R.length + M.length) = (a, 6 + R.length + M.length) := by
    have hsplit : data = (((R.length :: R) ++ [M.length]) ++ M) ++ (be4 a ++ (be4 s ++ be4 c)) := by
      simp [hdata]
    rw [read_int, hsplit]
    rw [List.drop_left' (by simp [be4] <;> omega)]
    rw [List.take_left' (by simp [be4]), fromBe_be4 h3]
    simp only [Prod.mk.injEq, true_and]
    omega
  have i2 : read_int data (6 + R.length + M.length) = (s, 10 + R.length + M.length) := by
    have hsplit : data = ((((R.length :: R) ++ [M.length]) ++ M) ++ be4 a) ++ (be4 s ++ be4 c) := by
      simp [hdata]
    rw [read_int, hsplit]
    rw [List.drop_left' (by simp [be4] <;> omega)]
    rw [List.take_left' (by simp [be4]), fromBe_be4 h4]
    simp only [Prod.mk.injEq, true_and]
    omega
  have i3 : read_int data (10 + R.length + M.length) = (c, 14 + R.length + M.length) := by
    have hsplit : data = (((((R.length :: R) ++ [M.length]) ++ M) ++ be4 a) ++ be4 s) ++ be4 c := by
      simp [hdata]
    rw [read_int, hsplit]
    rw [List.drop_left' (by simp [be4] <;> omega)]
    have htake : List.take 4 (be4 c) = be4 c := by simp [be4]
    rw [htake, fromBe_be4 h5]
    simp only [Prod.mk.injEq, true_and]
    omega
  simp [CheckpointSubmission.from_bytes, r1, r2, i1, i2, i3]

end Codec

namespace Codec

/-- C5: for every record whose encoded size is at most 128 bytes (and whose
fields satisfy the data-model bounds), decoding the encoding yields the
record back exactly, the 32-bit float pattern included. -/
theorem C5_roundtrip (r : CheckpointSubmission)
    (h1 : r.repository.length ≤ 255) (h2 : r.mlpackages.length ≤ 255)
    (h3 : r.average_time_bits < 2 ^ 32) (h4 : r.spec_version < 2 ^ 32)
    (h5 : r.contest < 2 ^ 32)
    (h6 : 14 + r.repository.length + r.mlpackages.length ≤ 128) :
    ∃ enc, r.to_bytes = .ok enc ∧ CheckpointSubmission.from_bytes enc = some r := by
  rw [to_bytes_eq r h1 h2 h3 h4 h5, if_neg (by omega)]
  exact ⟨_, rfl, decode_assembled r.repository r.mlpackages r.average_time_bits
    r.spec_version r.contest h3 h4 h5⟩

theorem C5_roundtrip_witness :
    ∃ enc, (⟨[104, 105], [106], 5, 20, 0⟩ : CheckpointSubmission).to_bytes = .ok enc ∧
      CheckpointSubmission.from_bytes enc = some ⟨[104, 105], [106], 5, 20, 0⟩ :=
  C5_roundtrip ⟨[104, 105], [106], 5, 20, 0⟩ (by norm_num) (by norm_num) (by norm_num)
    (by norm_num) (by norm_num) (by norm_num)

/-- C8: an assembled encoding longer than 128 bytes makes `to_bytes` fail
with the oversize error carrying the record and the computed length (and no
bytes are returned); within the limit the full byte sequence is returned. -/
theorem C8_size_enforcement (r : CheckpointSubmission)
    (h1 : r.repository.length ≤ 255) (h2 : r.mlpackages.length ≤ 255)
    (h3 : r.average_time_bits < 2 ^ 32) (h4 : r.spec_version < 2 ^ 32)
    (h5 : r.contest < 2 ^ 32) :
    (128 < 14 + r.repository.length + r.mlpackages.length →
      r.to_bytes = .error (.oversize r (14 + r.repository.length + r.mlpackages.length))) ∧
    (14 + r.repository.length + r.mlpackages.length ≤ 128 →
      ∃ enc, r.to_bytes = .ok enc ∧
        enc.length = 14 + r.repository.length + r.mlpackages.length) := by
  constructor
  · intro h
    rw [to_bytes_eq r h1 h2 h3 h4 h5, if_pos h]
  · intro h
    rw [to_bytes_eq r h1 h2 h3 h4 h5, if_neg (by omega)]
    exact ⟨_, rfl, assembled_length r⟩

theorem C8_size_enforcement_witness :
    (⟨List.replicate 120 97, [], 0, 20, 0⟩ : CheckpointSubmission).to_bytes =
      .error (.oversize ⟨List.replicate 120 97, [], 0, 20, 0⟩ 134) := by
  have h := (C8_size_enforcement ⟨List.replicate 120 97, [], 0, 20, 0⟩
    (by norm_num) (by norm_num) (by norm_num) (by norm_num) (by norm_num)).1
    (by norm_num)
  simpa using h

/-- C3 counterexample: a strict prefix (17 of 18 bytes) of a valid encoded
buffer decodes WITHOUT error into a wrongly-populated record (contest read
from only 3 remaining bytes), contradicting the claim that every strict
prefix fails to decode. -/
theorem C3_truncation_counterexample :
    (⟨[97, 98], [99, 100], 0, 20, 7⟩ : CheckpointSubmission).to_bytes =
      .ok [2, 97, 98, 2, 99, 100, 0, 0, 0, 0, 0, 0, 0, 20, 0, 0, 0, 7] ∧
    CheckpointSubmission.from_bytes
      ([2, 97, 98, 2, 99, 100, 0, 0, 0, 0, 0, 0, 0, 20, 0, 0, 0, 7].take 17) =
      some ⟨[97, 98], [99, 100], 0, 20, 0⟩ ∧
    (⟨[97, 98], [99, 100], 0, 20, 0⟩ : CheckpointSubmission) ≠ ⟨[97, 98], [99, 100], 0, 20, 7⟩ := by
  refine ⟨?_, ?_, by decide⟩
  · decide
  · decide

end Codec

namespace Codec

/-- C3 amended: decoding a strict prefix of a valid encoded buffer raises
only when the prefix ends at or before the end of the repository field
(so the read of the second length byte is out of range); every longer
strict prefix decodes without error into some (possibly wrongly-populated)
record.  The ASCII hypotheses record that for such records the Python
string decode cannot fail either. -/
theorem C3_truncation_amended (r : CheckpointSubmission)
    (h1 : r.repository.length ≤ 255) (h2 : r.mlpackages.length ≤ 255)
    (h3 : r.average_time_bits < 2 ^ 32) (h4 : r.spec_version < 2 ^ 32)
    (h5 : r.contest < 2 ^ 32)
    (h6 : 14 + r.repository.length + r.mlpackages.length ≤ 128)
    (hra : ∀ b ∈ r.repository, b < 128) (hma : ∀ b ∈ r.mlpackages, b < 128)
    (L : ℕ) (hL : L < 14 + r.repository.length + r.mlpackages.length) :
    r.to_bytes = .ok ([r.repository.length] ++ r.repository ++ [r.mlpackages.length] ++
      r.mlpackages ++ be4 r.average_time_bits ++ be4 r.spec_version ++ be4 r.contest) ∧
    ((CheckpointSubmission.from_bytes
        (([r.repository.length] ++ r.repository ++ [r.mlpackages.length] ++
          r.mlpackages ++ be4 r.average_time_bits ++ be4 r.spec_version ++
          be4 r.contest).take L) = none) ↔
      L ≤ 1 + r.repository.length) := by
  constructor
  · rw [to_bytes_eq r h1 h2 h3 h4 h5, if_neg (by omega)]
  · set enc : List ℕ := [r.repository.length] ++ r.repository ++ [r.mlpackages.length] ++
      r.mlpackages ++ be4 r.average_time_bits ++ be4 r.spec_version ++ be4 r.contest with hdata
    have hlen : enc.length = 14 + r.repository.length + r.mlpackages.length :=
      assembled_length r
    rcases Nat.eq_zero_or_pos L with hz | hpos
    · subst hz
      simp [CheckpointSubmission.from_bytes, read_bytes]
    have hsplit : enc = r.repository.length :: (r.repository ++
        (r.mlpackages.length :: (r.mlpackages ++ (be4 r.average_time_bits ++
          (be4 r.spec_version ++ be4 r.contest))))) := by
      simp [hdata]
    have g0 : (enc.take L)[0]? = some r.repository.length := by
      rw [List.getElem?_take, if_pos hpos, hsplit, List.getElem?_cons_zero]
    by_cases hle : L ≤ 1 + r.repository.length
    · -- the first read succeeds but leaves the cursor at 1 + |repository|,
      -- which is outside the prefix: the second length-byte read raises
      have glen : (enc.take L).length = L := by
        simp [List.length_take, hlen]
        omega
      have g1 : (enc.take L)[1 + r.repository.length]? = none :=
        List.getElem?_eq_none (by omega)
      simp [CheckpointSubmission.from_bytes, read_bytes, g0, g1, hle]
    · -- the prefix holds the whole repository field and the second length
      -- byte: both reads succeed and the numeric reads never raise
      have g1 : (enc.take L)[1 + r.repository.length]? = some r.mlpackages.length := by
        rw [List.getElem?_take, if_pos (by omega), hsplit]
        rw [show 1 + r.repository.length = r.repository.length + 1 by omega]
        rw [List.getElem?_cons_succ]
        rw [List.getElem?_append_right (by omega)]
        rw [Nat.sub_self, List.getElem?_cons_zero]
      simp [CheckpointSubmission.from_bytes, read_bytes, g0, g1, read_int, hle]

end Codec

namespace Codec

theorem C3_truncation_amended_witness :
    CheckpointSubmission.from_bytes
      ([2, 97, 98, 2, 99, 100, 0, 0, 0, 0, 0, 0, 0, 20, 0, 0, 0, 7].take 2) = none := by
  have h := (C3_truncation_amended ⟨[97, 98], [99, 100], 0, 20, 7⟩ (by norm_num) (by norm_num)
    (by norm_num) (by norm_num) (by norm_num) (by norm_num) (by decide) (by decide)
    2 (by norm_num)).2.mpr (by norm_num)
  simpa [be4] using h

/-- C9: the caller-side reader returns a record exactly when the bytes
decode (the UTF-8 `.decode()` step of the string fields included) and pass
the version, contest and non-baseline checks; absent metadata, failed
decodes and failed checks all yield `none` (never an error).  The two
concrete conjuncts exercise the `UnicodeDecodeError` path: byte 255 is not
valid UTF-8, so that buffer's repository field fails to decode and the
submission is treated as absent. -/
theorem C9_submission_validation :
    get_submission none = none ∧
    (∀ bs : List ℕ, CheckpointSubmission.from_bytes_decoded bs = none →
      get_submission (some bs) = none) ∧
    (∀ (md : Option (List ℕ)) (info : CheckpointSubmission),
      get_submission md = some info ↔
        ∃ bs, md = some bs ∧ CheckpointSubmission.from_bytes_decoded bs = some info ∧
          info.spec_version = SPEC_VERSION ∧ info.contest = CURRENT_CONTEST ∧
          ¬(info.repository = BASELINE_CHECKPOINT ∧ info.mlpackages = MLPACKAGES)) ∧
    CheckpointSubmission.from_bytes_decoded
      [1, 255, 0, 0, 0, 0, 0, 0, 0, 0, 0, 20, 0, 0, 0] = none ∧
    get_submission (some [1, 255, 0, 0, 0, 0, 0, 0, 0, 0, 0, 20, 0, 0, 0]) = none := by
  refine ⟨rfl, ?_, ?_, by decide, by decide⟩
  · intro bs h
    simp [get_submission, h]
  · intro md info
    cases md with
    | none => simp [get_submission]
    | some bs =>
      cases hfb : CheckpointSubmission.from_bytes_decoded bs with
      | none => simp [get_submission, hfb]
      | some r =>
        by_cases hc : r.spec_version ≠ SPEC_VERSION ∨ r.contest ≠ CURRENT_CONTEST ∨
            (r.repository = BASELINE_CHECKPOINT ∧ r.mlpackages = MLPACKAGES)
        · simp only [get_submission, hfb, if_pos hc]
          constructor
          · intro h
            exact absurd h (by simp)
          · rintro ⟨bs', hbs', hfb', hv, hcont, hrep⟩
            cases hbs'
            rw [hfb] at hfb'
            cases hfb'
            tauto
        · simp only [get_submission, hfb, if_neg hc]
          push_neg at hc
          constructor
          · intro h
            cases h
            exact ⟨bs, rfl, hfb, hc.1, hc.2.1, by tauto⟩
          · rintro ⟨bs', hbs', hfb', hv, hcont, hrep⟩
            cases hbs'
            rw [hfb] at hfb'
            cases hfb'
            rfl

end Codec

namespace Validator

theorem step_sim_nonneg (A : ℚ) (i : ℕ) (t c : ℚ) (s : State)
    (h : 0 ≤ s.average_similarity) : 0 ≤ (step A i t c s).average_similarity := by
  have key : 0 ≤ (s.average_similarity * i + c ^ 4) / (i + 1 : ℕ) := by
    apply div_nonneg
    · exact add_nonneg (mul_nonneg h (Nat.cast_nonneg i)) (by positivity)
    · positivity
  simp only [step]
  split_ifs <;> simpa using key

theorem loop_sim_nonneg (A : ℚ) (times cosSims : ℕ → ℚ) :
    ∀ (n i : ℕ) (s : State), 0 ≤ s.average_similarity →
      0 ≤ (loop A times cosSims n i s).average_similarity := by
  intro n
  induction n with
  | zero => intro i s h; exact h
  | succ n ih =>
    intro i s h
    simp only [loop]
    cases hstop : (step A i (times i) (cosSims i) s).stopReason with
    | none => exact ih (i + 1) _ (step_sim_nonneg A i (times i) (cosSims i) s h)
    | some r => exact step_sim_nonneg A i (times i) (cosSims i) s h

end Validator

namespace Validator

theorem run_sim_nonneg (A : ℚ) (times cosSims : ℕ → ℚ) :
    0 ≤ (run A times cosSims).average_similarity :=
  loop_sim_nonneg A times cosSims SAMPLE_COUNT 0 ⟨A, 1, 0, none⟩ (by norm_num)

end Validator

/-- C2: the validator comparison's result does not depend on the candidate
pipeline: both generation calls of every iteration are issued to the
baseline pipeline, so any two miner checkpoints yield the same score. -/
theorem C2_miner_checkpoint_ignored {P O : Type} (AVERAGE_TIME : ℚ)
    (gen : P → ℕ → Fin 2 → O) (cosSim : O → O → ℚ) (times : ℕ → ℚ)
    (baseline m1 m2 : P) :
    Validator.compare_checkpoints AVERAGE_TIME gen cosSim times baseline m1 =
      Validator.compare_checkpoints AVERAGE_TIME gen cosSim times baseline m2 := rfl

/-- C10: the validator score is `min(0, averageTime - AVERAGE_TIME) *
averageSimilarity`; the running similarity (a mean of fourth powers seeded
with 1.0) is nonnegative, hence the score is never positive, and a run
whose final average time is at least `AVERAGE_TIME` scores exactly 0. -/
theorem C10_score_never_positive {P O : Type} (AVERAGE_TIME : ℚ)
    (gen : P → ℕ → Fin 2 → O) (cosSim : O → O → ℚ) (times : ℕ → ℚ)
    (baseline miner_checkpoint : P) :
    Validator.compare_checkpoints AVERAGE_TIME gen cosSim times baseline miner_checkpoint =
      min 0 ((Validator.run AVERAGE_TIME times
          (fun i => cosSim (gen baseline i 0) (gen baseline i 1))).average_time -
        AVERAGE_TIME) *
        (Validator.run AVERAGE_TIME times
          (fun i => cosSim (gen baseline i 0) (gen baseline i 1))).average_similarity ∧
    0 ≤ (Validator.run AVERAGE_TIME times
      (fun i => cosSim (gen baseline i 0) (gen baseline i 1))).average_similarity ∧
    Validator.compare_checkpoints AVERAGE_TIME gen cosSim times baseline miner_checkpoint ≤ 0 ∧
    (AVERAGE_TIME ≤ (Validator.run AVERAGE_TIME times
        (fun i => cosSim (gen baseline i 0) (gen baseline i 1))).average_time →
      Validator.compare_checkpoints AVERAGE_TIME gen cosSim times baseline miner_checkpoint = 0) := by
  set s := Validator.run AVERAGE_TIME times
    (fun i => cosSim (gen baseline i 0) (gen baseline i 1)) with hs
  have hsim : 0 ≤ s.average_similarity := Validator.run_sim_nonneg _ _ _
  refine ⟨rfl, hsim, ?_, ?_⟩
  · exact mul_nonpos_iff.mpr (Or.inr ⟨min_le_left 0 _, hsim⟩)
  · intro h
    have hmin : min 0 (s.average_time - AVERAGE_TIME) = 0 :=
      min_eq_left (by linarith)
    show min 0 (s.average_time - AVERAGE_TIME) * s.average_similarity = 0
    rw [hmin, zero_mul]

/-- C6 counterexample (validator variant): every sample is instantaneous
(running average time 0, better than the baseline constant 1) and has
similarity 0, so the running similarity is below 0.85 from sample 0 on; yet
the run never stops early — all 10 samples execute and no break fires,
because the fast path skips the quality check. -/
theorem C6_quality_stop_counterexample :
    (Validator.run 1 (fun _ => 0) (fun _ => 0)).samplesTested = 10 ∧
    (Validator.run 1 (fun _ => 0) (fun _ => 0)).stopReason = none ∧
    (Validator.run 1 (fun _ => 0) (fun _ => 0)).average_similarity < 17 / 20 := by
  norm_num [Validator.run, Validator.loop, Validator.step, Validator.SAMPLE_COUNT]

/-- C7 counterexample (validator variant): at sample 0 with elapsed time 2
against baseline constant 1, the running average is 2 (not better than the
baseline) and `neededTime = 1` is below 0.75 of the running average (1.5),
so the claimed self-contained-variant rule (fraction 0.75) would stop; the
code compares against `averageTime / 2 = 1` and does not stop. -/
theorem C7_fraction_counterexample :
    Validator.step 1 0 2 1 ⟨1, 1, 0, none⟩ = ⟨2, 1, 1, none⟩ ∧
    ((1 : ℚ) * 10 - 0 * 2) / (10 - 0) < (3 / 4) * 2 ∧
    ¬ ((2 : ℚ) < 1) := by
  norm_num [Validator.step, Validator.SAMPLE_COUNT]

namespace Neuron

theorem step_nan (reported : Option ℚ) (i : ℕ) (x : Sample) (m : ℚ) :
    step reported i x ⟨false, .nan, .nan, .fin m, i, none⟩ =
      if (m * i + simOf x) / ((i : ℚ) + 1) < 17 / 20 then
        ⟨true, .nan, .nan, .fin ((m * i + simOf x) / ((i : ℚ) + 1)), i + 1,
          some .qualityFloor⟩
      else
        ⟨false, .nan, .nan, .fin ((m * i + simOf x) / ((i : ℚ) + 1)), i + 1, none⟩ := by
  cases reported <;>
    simp [step, simOf, PyFloat.mul, PyFloat.add, PyFloat.divNat, PyFloat.lt, PyFloat.le,
      PyFloat.ge, PyFloat.sub, PyFloat.neg, Nat.cast_add, Nat.cast_one]

end Neuron

namespace Neuron

theorem step_init (reported : Option ℚ) (x : Sample) :
    step reported 0 x ⟨false, .inf, .inf, .fin 1, 0, none⟩ =
      if simOf x < 17 / 20 then
        ⟨true, .nan, .nan, .fin (simOf x), 1, some .qualityFloor⟩
      else
        ⟨false, .nan, .nan, .fin (simOf x), 1, none⟩ := by
  cases reported <;>
    simp [step, simOf, PyFloat.mul, PyFloat.add, PyFloat.divNat, PyFloat.lt, PyFloat.le,
      PyFloat.ge, PyFloat.sub, PyFloat.neg]

theorem loop_eq_nanLoop (reported : Option ℚ) (samples : ℕ → Sample) :
    ∀ (n i : ℕ) (m : ℚ),
      loop reported samples n i ⟨false, .nan, .nan, .fin m, i, none⟩ =
        nanLoop samples n i m := by
  intro n
  induction n with
  | zero => intro i m; rfl
  | succ n ih =>
    intro i m
    rw [loop, step_nan, nanLoop]
    by_cases h : (m * i + simOf (samples i)) / ((i : ℚ) + 1) < 17 / 20
    · rw [if_pos h]
      simp only [if_pos h]
    · rw [if_neg h]
      simp only [if_neg h]
      exact ih (i + 1) _

end Neuron

namespace Neuron

/-- Master normal form of the neuron comparator: since both time averages
become `nan` at the very first fold (`inf * 0 = nan`), every run reduces to
the pure similarity fold `nanLoop`, whatever the reported time is. -/
theorem compare_checkpoints_eq (reported : Option ℚ) (samples : ℕ → Sample) :
    compare_checkpoints reported samples =
      if simOf (samples 0) < 17 / 20 then
        ⟨true, .nan, .nan, .fin (simOf (samples 0)), 1, some .qualityFloor⟩
      else
        nanLoop samples 4 1 (simOf (samples 0)) := by
  rw [compare_checkpoints, show SAMPLE_COUNT = 4 + 1 from rfl, loop, step_init]
  by_cases h : simOf (samples 0) < 17 / 20
  · rw [if_pos h, if_pos h]
  · rw [if_neg h, if_neg h]
    exact loop_eq_nanLoop reported samples 4 1 _

theorem nanLoop_stopReason (samples : ℕ → Sample) :
    ∀ (n i : ℕ) (m : ℚ),
      (nanLoop samples n i m).stopReason = none ∨
        (nanLoop samples n i m).stopReason = some .qualityFloor := by
  intro n
  induction n with
  | zero => intro i m; exact Or.inl rfl
  | succ n ih =>
    intro i m
    rw [nanLoop]
    by_cases h : (m * i + simOf (samples i)) / ((i : ℚ) + 1) < 17 / 20
    · rw [if_pos h]
      exact Or.inr rfl
    · rw [if_neg h]
      exact ih (i + 1) _

theorem nanLoop_average_time (samples : ℕ → Sample) :
    ∀ (n i : ℕ) (m : ℚ), (nanLoop samples n i m).average_time = PyFloat.nan := by
  intro n
  induction n with
  | zero => intro i m; rfl
  | succ n ih =>
    intro i m
    rw [nanLoop]
    by_cases h : (m * i + simOf (samples i)) / ((i : ℚ) + 1) < 17 / 20
    · rw [if_pos h]
    · rw [if_neg h]
      exact ih (i + 1) _

theorem simMean_zero (samples : ℕ → Sample) : simMean samples 0 = simOf (samples 0) := by
  simp [simMean]

theorem simMean_succ (samples : ℕ → Sample) (i : ℕ) :
    simMean samples (i + 1) =
      (simMean samples i * ((i : ℚ) + 1) + simOf (samples (i + 1))) / ((i : ℚ) + 2) := by
  have hne : ((i : ℚ) + 1) ≠ 0 := by positivity
  rw [simMean, simMean, Finset.sum_range_succ, div_mul_cancel₀ _ hne]
  push_cast
  ring_nf

end Neuron

namespace Neuron

theorem nanLoop_crossing (samples : ℕ → Sample) (j : ℕ)
    (hj : ∀ k, k < j → 17 / 20 ≤ simMean samples k)
    (hc : simMean samples j < 17 / 20) :
    ∀ (n i : ℕ), i < j → j < i + 1 + n →
      nanLoop samples n (i + 1) (simMean samples i) =
        ⟨true, .nan, .nan, .fin (simMean samples j), j + 1, some .qualityFloor⟩ := by
  intro n
  induction n with
  | zero =>
    intro i h1 h2
    omega
  | succ n ih =>
    intro i h1 h2
    rw [nanLoop]
    have hm : (simMean samples i * ((i + 1 : ℕ) : ℚ) + simOf (samples (i + 1))) /
        (((i + 1 : ℕ) : ℚ) + 1) = simMean samples (i + 1) := by
      rw [simMean_succ]
      push_cast
      ring_nf
    rw [hm]
    by_cases hij : i + 1 = j
    · subst hij
      rw [if_pos hc]
    · have hlt : i + 1 < j := by omega
      rw [if_neg (not_lt.mpr (hj (i + 1) hlt))]
      exact ih (i + 1) hlt (by omega)

end Neuron

/-- C1: the claim is the intended running-average semantics, but the code
seeds both time averages with `float("inf")`, and `inf * 0 + t` is NaN: at
sample index 0 the running `average_time` is NaN (not the sample's elapsed
time 2, as in the concrete first conjunct), and it is NaN at the end of
every run, whatever the samples and the reported time are. -/
theorem C1_running_average_code_bug :
    (Neuron.step none 0 ⟨1, 2, 1⟩ ⟨false, .inf, .inf, .fin 1, 0, none⟩).average_time =
      PyFloat.nan ∧
    (∀ (reported : Option ℚ) (samples : ℕ → Neuron.Sample),
      (Neuron.compare_checkpoints reported samples).average_time = PyFloat.nan) ∧
    PyFloat.nan ≠ PyFloat.fin 2 := by
  refine ⟨?_, ?_, by decide⟩
  · rw [Neuron.step_init, if_neg (by norm_num [Neuron.simOf])]
  · intro reported samples
    rw [Neuron.compare_checkpoints_eq]
    by_cases h : Neuron.simOf (samples 0) < 17 / 20
    · rw [if_pos h]
    · rw [if_neg h]
      exact Neuron.nanLoop_average_time _ 4 1 _

/-- C4: the reported-time break never fires in any run (the NaN running
average makes the check always false); in particular, with reported time 1
and every sample taking 2 > 1 * 1.0625 seconds, the claimed early stop at
index 0 with failed = true does not happen: all 5 samples run and the
result is not failed. -/
theorem C4_reported_time_code_bug :
    (∀ (reported : Option ℚ) (samples : ℕ → Neuron.Sample),
      (Neuron.compare_checkpoints reported samples).stopReason ≠
        some Neuron.StopReason.reportedTime) ∧
    (Neuron.compare_checkpoints (some 1) (fun _ => ⟨1, 2, 1⟩)).failed = false ∧
    (Neuron.compare_checkpoints (some 1) (fun _ => ⟨1, 2, 1⟩)).samplesTested = 5 ∧
    (1 : ℚ) * (17 / 16) < 2 := by
  refine ⟨?_, ?_, ?_, by norm_num⟩
  · intro reported samples
    rw [Neuron.compare_checkpoints_eq]
    by_cases h : Neuron.simOf (samples 0) < 17 / 20
    · rw [if_pos h]
      simp
    · rw [if_neg h]
      rcases Neuron.nanLoop_stopReason samples 4 1 (Neuron.simOf (samples 0)) with h' | h' <;>
        simp [h']
  all_goals
    norm_num [Neuron.compare_checkpoints, Neuron.loop, Neuron.step, Neuron.SAMPLE_COUNT,
      PyFloat.divNat, PyFloat.lt, PyFloat.ge, PyFloat.le, PyFloat.sub, PyFloat.neg,
      PyFloat.mul, PyFloat.add]

/-- C6 amended: in the paired (neuron) variant, for every injected sample
sequence, the run stops at the first index whose running similarity mean
drops below 0.85, with failed = true, whatever the injected times and the
reported time are (the time aggregates being NaN, no speed check ever
diverts the flow); the validator variant instead skips the quality check
whenever the running average time beats the baseline constant. -/
theorem C6_quality_stop_amended (reported : Option ℚ) (samples : ℕ → Neuron.Sample)
    (j : ℕ) (hj5 : j < 5)
    (hj : ∀ k, k < j → 17 / 20 ≤ Neuron.simMean samples k)
    (hc : Neuron.simMean samples j < 17 / 20) :
    (Neuron.compare_checkpoints reported samples).failed = true ∧
    (Neuron.compare_checkpoints reported samples).samplesTested = j + 1 ∧
    (Neuron.compare_checkpoints reported samples).stopReason =
      some Neuron.StopReason.qualityFloor ∧
    (Neuron.compare_checkpoints reported samples).average_similarity =
      PyFloat.fin (Neuron.simMean samples j) := by
  rw [Neuron.compare_checkpoints_eq]
  rcases Nat.eq_zero_or_pos j with h0 | hpos
  · subst h0
    rw [if_pos (by rwa [Neuron.simMean_zero] at hc)]
    exact ⟨rfl, rfl, rfl, by rw [Neuron.simMean_zero]⟩
  · have hno : ¬ Neuron.simOf (samples 0) < 17 / 20 := by
      rw [← Neuron.simMean_zero]
      exact not_lt.mpr (hj 0 hpos)
    rw [if_neg hno]
    have hcr := Neuron.nanLoop_crossing samples j hj hc 4 0 hpos (by omega)
    rw [Neuron.simMean_zero] at hcr
    rw [hcr]
    exact ⟨rfl, rfl, rfl, rfl⟩

theorem C6_quality_stop_amended_witness :
    (Neuron.compare_checkpoints none (fun _ => ⟨1, 1, 0⟩)).failed = true ∧
    (Neuron.compare_checkpoints none (fun _ => ⟨1, 1, 0⟩)).samplesTested = 0 + 1 ∧
    (Neuron.compare_checkpoints none (fun _ => ⟨1, 1, 0⟩)).stopReason =
      some Neuron.StopReason.qualityFloor ∧
    (Neuron.compare_checkpoints none (fun _ => ⟨1, 1, 0⟩)).average_similarity =
      PyFloat.fin (Neuron.simMean (fun _ => ⟨1, 1, 0⟩) 0) :=
  C6_quality_stop_amended none (fun _ => ⟨1, 1, 0⟩) 0 (by norm_num)
    (fun k hk => absurd hk (Nat.not_lt_zero k))
    (by norm_num [Neuron.simMean, Neuron.simOf])

/-- C7 amended: both variants gate the infeasible-speed stop by the
fraction 0.5 (`needed_time < average_time / 2`), not 0.75: in the validator
variant the break fires exactly when the new running average is not below
the baseline constant and neededTime is below half of it; in the neuron
variant the same textual guard never fires at all (its time aggregates are
NaN), so no run ever stops for infeasible speed. -/
theorem C7_infeasible_speed_amended :
    (∀ (A : ℚ) (i : ℕ) (t c : ℚ) (s : Validator.State),
      (Validator.step A i t c s).stopReason = some Validator.StopReason.infeasibleSpeed ↔
        (¬ (s.average_time * i + t) / ((i : ℚ) + 1) < A ∧
          (A * (Validator.SAMPLE_COUNT : ℚ) -
              i * ((s.average_time * i + t) / ((i : ℚ) + 1))) /
            ((Validator.SAMPLE_COUNT - i : ℕ) : ℚ) <
            ((s.average_time * i + t) / ((i : ℚ) + 1)) / 2)) ∧
    (∀ (reported : Option ℚ) (samples : ℕ → Neuron.Sample),
      (Neuron.compare_checkpoints reported samples).stopReason ≠
        some Neuron.StopReason.infeasibleSpeed) := by
  constructor
  · intro A i t c s
    simp only [Validator.step]
    split_ifs with h1 h2 h3 <;> simp_all
  · intro reported samples
    rw [Neuron.compare_checkpoints_eq]
    by_cases h : Neuron.simOf (samples 0) < 17 / 20
    · rw [if_pos h]
      simp
    · rw [if_neg h]
      rcases Neuron.nanLoop_stopReason samples 4 1 (Neuron.simOf (samples 0)) with h' | h' <;>
        simp [h']
